import Mathlib

/-
  Verification of the conversation state machine of the Sentient chat UI
  (src/src/App.jsx). The component keeps a draft (`input`), an ordered
  transcript (`messages`), and two boolean flags (`loading`, `isTyping`).
  `sendMessage` validates the draft, appends a user message, builds the
  completion request, and appends an assistant message on every completed
  path; the `finally` block clears the flags. We embed one complete run of
  `sendMessage` as a pure state transformer parameterised by the
  environment (credential and remote outcome) and timestamps.
-/

namespace SentientChat

/-- Author of a chat message: the `Message` interface permits only the
`user` and `assistant` roles. -/
inductive Role where
  | user : Role
  | assistant : Role
deriving DecidableEq, Repr

/-- A chat message as in the `Message` interface of `App.jsx`: author role,
text content and creation timestamp (modelled as a natural number). -/
structure Message where
  role : Role
  content : String
  timestamp : Nat
deriving DecidableEq, Repr

/-- The component state of `App`: the draft text (`input` state hook), the
transcript (`messages`), and the `loading` and `isTyping` flags. -/
structure AppState where
  input : String
  messages : List Message
  loading : Bool
  isTyping : Bool
deriving DecidableEq, Repr

/-- The `message` object inside one completion choice; `content` is `none`
when the field is absent or null in the JSON. -/
structure ChoiceMessage where
  content : Option String
deriving DecidableEq, Repr

/-- One entry of the response `choices` array; `message` is `none` when the
field is absent or null. -/
structure Choice where
  message : Option ChoiceMessage
deriving DecidableEq, Repr

/-- Parsed JSON body of a 2xx response. `choices` is `none` when the field
is missing entirely, in which case the expression `data.choices[0]` raises
a TypeError (there is no optional chaining between `choices` and `[0]`). -/
structure ResponseBody where
  choices : Option (List Choice)
deriving DecidableEq, Repr

/-- Outcome of the `fetch` call as observed by `sendMessage`: a rejected
promise, a response with `response.ok` false (non-2xx status), or a 2xx
response with a parsed JSON body. -/
inductive FetchOutcome where
  | networkError : FetchOutcome
  | httpError : Nat → FetchOutcome
  | success : ResponseBody → FetchOutcome
deriving DecidableEq, Repr

/-- The environment one `sendMessage` run executes against: the value of
`import.meta.env.VITE_FIREWORKS_API_KEY` (`none` when unset) and the result
the `fetch` call would produce were it issued. -/
structure Env where
  apiKey : Option String
  fetchResult : FetchOutcome
deriving DecidableEq, Repr

/-- JavaScript truthiness of the credential: `if (!apiKey) throw` rejects
both an unset variable and an empty string. -/
def keyPresent (e : Env) : Bool :=
  match e.apiKey with
  | none => false
  | some s => !(s == "")

/-- One `{role, content}` entry of the request body `messages` array. -/
structure PayloadMessage where
  role : String
  content : String
deriving DecidableEq, Repr

/-- The fixed system instruction prepended to every request. -/
def systemPrompt : String :=
  "You are an expert AI DeFi Assistant. Provide helpful, accurate information about decentralized finance, staking, yield farming, liquidity provision, and crypto strategies. Be concise but informative."

/-- The fixed model identifier sent with every request. -/
def modelId : String :=
  "accounts/sentientfoundation-serverless/models/dobby-mini-unhinged-plus-llama-3-1-8b"

/-- The JSON request body of the completion call; the sampling parameters
are fixed configuration constants. -/
structure RequestPayload where
  model : String
  messages : List PayloadMessage
  max_tokens : Nat
  temperature : ℚ
  top_p : ℚ
  frequency_penalty : ℚ
  presence_penalty : ℚ
deriving DecidableEq, Repr

/-- Serialization of a transcript message for the request body, as in
`messages.map(m => ({ role: m.role, content: m.content }))`. -/
def toPayloadMessage (m : Message) : PayloadMessage :=
  match m.role with
  | Role.user => { role := "user", content := m.content }
  | Role.assistant => { role := "assistant", content := m.content }

/-- The request body `sendMessage` serializes: the fixed system instruction
first, then every message of the closure snapshot `history` in order, then
the new user entry carrying the raw draft text. -/
def buildPayload (history : List Message) (draft : String) : RequestPayload :=
  { model := modelId
  , messages := { role := "system", content := systemPrompt } ::
      (history.map toPayloadMessage ++ [{ role := "user", content := draft }])
  , max_tokens := 1024
  , temperature := (7 : ℚ) / 10
  , top_p := (9 : ℚ) / 10
  , frequency_penalty := (1 : ℚ) / 10
  , presence_penalty := (1 : ℚ) / 10 }

/-- Fallback reply used on the success path when no content is extracted. -/
def fallbackText : String := "Sorry, I could not process your request."

/-- Assistant text appended by the catch branch. -/
def errorText : String :=
  "Sorry, there was an error processing your message. Please try again."

/-- The greeting content seeded by the mount effect. -/
def greetingText : String :=
  "Hello! I am your Sentient AI Assistant. How can I help you with DeFi strategies today?"

/-- The JavaScript truthiness test `!input.trim()` used by the submit guard
(and by the send button): true exactly when the draft trims to the empty
string, i.e. every character of the draft is whitespace. -/
def blankDraft (s : String) : Bool :=
  s.toList.all Char.isWhitespace

/-- The expression `data.choices[0]?.message?.content ?? fallbackText`,
evaluated once `data.choices` is known to be an array. The nullish
coalescing operator substitutes the fallback only for null or undefined,
never for the empty string. -/
def extractReply (cs : List Choice) : String :=
  match cs with
  | [] => fallbackText
  | c :: _ =>
    match c.message with
    | none => fallbackText
    | some m =>
      match m.content with
      | none => fallbackText
      | some s => s

/-- One complete run of `sendMessage` from state `s` under environment
`env`, with `t1` the timestamp of the user message and `t2` that of the
assistant message. Returns the final state together with the request body
handed to `fetch`, or `none` when no request was issued. The guard
`if (!input.trim() || loading) return` rejects first; afterwards every path
appends exactly one assistant message and the `finally` block clears both
flags. -/
def sendMessage (env : Env) (t1 t2 : Nat) (s : AppState) :
    AppState × Option RequestPayload :=
  if blankDraft s.input || s.loading then (s, none)
  else
    let userMessage : Message :=
      { role := Role.user, content := s.input, timestamp := t1 }
    let appended := s.messages ++ [userMessage]
    if !(keyPresent env) then
      -- `throw new Error` fires before `fetch`: no request is issued, the
      -- catch block appends the error message, `finally` clears the flags.
      ({ input := "", messages := appended ++
          [{ role := Role.assistant, content := errorText, timestamp := t2 }],
         loading := false, isTyping := false }, none)
    else
      let payload := buildPayload s.messages s.input
      match env.fetchResult with
      | FetchOutcome.networkError =>
        ({ input := "", messages := appended ++
            [{ role := Role.assistant, content := errorText, timestamp := t2 }],
           loading := false, isTyping := false }, some payload)
      | FetchOutcome.httpError _ =>
        ({ input := "", messages := appended ++
            [{ role := Role.assistant, content := errorText, timestamp := t2 }],
           loading := false, isTyping := false }, some payload)
      | FetchOutcome.success body =>
        match body.choices with
        | none =>
          -- `data.choices[0]` on an absent field raises a TypeError, taking
          -- the catch branch.
          ({ input := "", messages := appended ++
              [{ role := Role.assistant, content := errorText, timestamp := t2 }],
             loading := false, isTyping := false }, some payload)
        | some cs =>
          ({ input := "", messages := appended ++
              [{ role := Role.assistant, content := extractReply cs, timestamp := t2 }],
             loading := false, isTyping := false }, some payload)

/-- The textarea onChange handler, `setInput(e.target.value)`: it carries no
guard of its own. -/
def editDraft (t : String) (s : AppState) : AppState :=
  { s with input := t }

/-- The `disabled={loading}` attribute of the textarea element. -/
def textareaDisabled (s : AppState) : Bool := s.loading

/-- A user keystroke as the browser delivers it: a disabled textarea fires
no change events, so the edit reaches `setInput` only while `loading` is
false. -/
def userEdit (t : String) (s : AppState) : AppState :=
  if textareaDisabled s then s else editDraft t s

/-- The greeting message seeded by the mount effect. -/
def greetingMessage (t : Nat) : Message :=
  { role := Role.assistant, content := greetingText, timestamp := t }

/-- The initial component state: empty draft, empty transcript, flags
false. -/
def initState : AppState :=
  { input := "", messages := [], loading := false, isTyping := false }

/-- The state once the mount effect has run, seeding the transcript with
the greeting: this happens once, before any user interaction. -/
def mountedState (t : Nat) : AppState :=
  { input := "", messages := [greetingMessage t], loading := false,
    isTyping := false }

/-- One UI event processed after mount: a keystroke in the textarea, or a
submission triggered by the send button or the Enter key (both call
`sendMessage`, which re-checks its own guard). -/
inductive Step : AppState → AppState → Prop where
  | keystroke (t : String) (s : AppState) : Step s (userEdit t s)
  | submission (env : Env) (t1 t2 : Nat) (s : AppState) :
      Step s (sendMessage env t1 t2 s).1

/-- States reachable from the mounted state by UI events. -/
def Reachable (t0 : Nat) (s : AppState) : Prop :=
  Relation.ReflTransGen Step (mountedState t0) s

/-- The assistant text an accepted run of `sendMessage` appends, collected
from its branches: the catch branch text for a missing key, a rejected
fetch, a non-2xx status or a missing `choices` field, and the extracted
reply otherwise. -/
def replyText (env : Env) : String :=
  if !(keyPresent env) then errorText
  else
    match env.fetchResult with
    | FetchOutcome.networkError => errorText
    | FetchOutcome.httpError _ => errorText
    | FetchOutcome.success body =>
      match body.choices with
      | none => errorText
      | some cs => extractReply cs

/-- A submission that the guard rejects (blank draft or request already in
flight) returns the state unchanged and issues no request. -/
theorem sendMessage_rejected (env : Env) (t1 t2 : Nat) (s : AppState)
    (h : (blankDraft s.input || s.loading) = true) :
    sendMessage env t1 t2 s = (s, none) := by
  simp [sendMessage, h]

/-- Characterisation of an accepted submission: the user message carrying
the raw draft and one assistant message are appended, the draft is cleared,
both flags end false, and a request is issued exactly when the credential
is present. -/
theorem sendMessage_accepted (env : Env) (t1 t2 : Nat) (s : AppState)
    (h : (blankDraft s.input || s.loading) = false) :
    sendMessage env t1 t2 s =
      ({ input := "", messages := s.messages ++
          [{ role := Role.user, content := s.input, timestamp := t1 },
           { role := Role.assistant, content := replyText env, timestamp := t2 }],
         loading := false, isTyping := false },
       if keyPresent env then some (buildPayload s.messages s.input) else none) := by
  cases hk : keyPresent env with
  | false => simp [sendMessage, replyText, h, hk]
  | true =>
    cases hf : env.fetchResult with
    | networkError => simp [sendMessage, replyText, h, hk, hf]
    | httpError code => simp [sendMessage, replyText, h, hk, hf]
    | success body =>
      cases hc : body.choices with
      | none => simp [sendMessage, replyText, h, hk, hf, hc]
      | some cs => simp [sendMessage, replyText, h, hk, hf, hc]

/-- A keystroke never touches the transcript, whether or not the textarea
is disabled. -/
theorem userEdit_messages (t : String) (s : AppState) :
    (userEdit t s).messages = s.messages := by
  unfold userEdit textareaDisabled editDraft
  split <;> rfl

/-- Every UI event leaves the transcript a prefix of the new transcript. -/
theorem step_appends (s s' : AppState) (h : Step s s') :
    ∃ suffix, s'.messages = s.messages ++ suffix := by
  cases h with
  | keystroke t s => exact ⟨[], by simp [userEdit_messages]⟩
  | submission env t1 t2 s =>
    cases hacc : (blankDraft s.input || s.loading) with
    | true => rw [sendMessage_rejected env t1 t2 s hacc]; exact ⟨[], by simp⟩
    | false => rw [sendMessage_accepted env t1 t2 s hacc]; exact ⟨_, rfl⟩

/-- Every state reachable from the mounted state keeps the greeting as its
first transcript entry. -/
theorem reachable_head (t0 : Nat) (s : AppState) (h : Reachable t0 s) :
    ∃ rest, s.messages = greetingMessage t0 :: rest := by
  induction h with
  | refl => exact ⟨[], rfl⟩
  | tail hab hstep ih =>
    obtain ⟨rest, hrest⟩ := ih
    obtain ⟨suffix, hsuf⟩ := step_appends _ _ hstep
    exact ⟨rest ++ suffix, by rw [hsuf, hrest]; simp⟩

/-- A single UI event preserves the property that user-authored messages
carry content that is not whitespace-only. -/
theorem step_user_nonblank (a b : AppState) (hstep : Step a b)
    (ih : ∀ m ∈ a.messages, m.role = Role.user → blankDraft m.content = false) :
    ∀ m ∈ b.messages, m.role = Role.user → blankDraft m.content = false := by
  cases hstep with
  | keystroke t =>
    intro m hm hr
    rw [userEdit_messages] at hm
    exact ih m hm hr
  | submission env t1 t2 =>
    intro m hm hr
    cases hacc : (blankDraft a.input || a.loading) with
    | true =>
      rw [sendMessage_rejected env t1 t2 a hacc] at hm
      exact ih m hm hr
    | false =>
      rw [sendMessage_accepted env t1 t2 a hacc] at hm
      simp at hm
      rcases hm with hm | hm | hm
      · exact ih m hm hr
      · rw [hm]
        have hb : blankDraft a.input = false := by
          cases hb : blankDraft a.input
          · rfl
          · rw [hb] at hacc; simp at hacc
        exact hb
      · rw [hm] at hr; simp at hr

/-- In every reachable state, user-authored messages carry content that is
not whitespace-only. -/
theorem reachable_user_nonblank (t0 : Nat) (s : AppState) (h : Reachable t0 s) :
    ∀ m ∈ s.messages, m.role = Role.user → blankDraft m.content = false := by
  induction h with
  | refl =>
    intro m hm hr
    simp [mountedState] at hm
    rw [hm] at hr
    simp [greetingMessage] at hr
  | tail hab hstep ih => exact step_user_nonblank _ _ hstep ih

/-- A ready-to-submit state used in concrete checks: the mounted greeting
plus a draft carrying leading and trailing whitespace. -/
def readyState : AppState :=
  { input := " What is yield farming? ", messages := [greetingMessage 0],
    loading := false, isTyping := false }

/-- A state with a request outstanding. -/
def pendingState : AppState :=
  { input := "hello", messages := [greetingMessage 0], loading := true,
    isTyping := true }

/-- A state whose draft is whitespace-only. -/
def blankState : AppState :=
  { input := "   ", messages := [greetingMessage 0], loading := false,
    isTyping := false }

/-- Environment with the credential unset. -/
def envNoKey : Env := { apiKey := none, fetchResult := FetchOutcome.networkError }

/-- Environment answering with an HTTP 500 status. -/
def envHttp500 : Env :=
  { apiKey := some "key", fetchResult := FetchOutcome.httpError 500 }

/-- Environment answering 2xx with a body that lacks the choices field. -/
def envNoChoices : Env :=
  { apiKey := some "key", fetchResult := FetchOutcome.success { choices := none } }

/-- Environment answering 2xx whose first choice carries empty content. -/
def envEmptyContent : Env :=
  { apiKey := some "key", fetchResult := FetchOutcome.success
      { choices := some [{ message := some { content := some "" } }] } }

/-- C1: while `loading` is true, `sendMessage` leaves the transcript (and
the whole state) unchanged and issues no request, so at most one completion
request is outstanding at any time. -/
theorem submit_while_pending_is_noop (env : Env) (t1 t2 : Nat) (s : AppState)
    (h : s.loading = true) :
    (sendMessage env t1 t2 s).1 = s ∧ (sendMessage env t1 t2 s).2 = none := by
  have hg : (blankDraft s.input || s.loading) = true := by rw [h]; simp
  rw [sendMessage_rejected env t1 t2 s hg]
  exact ⟨rfl, rfl⟩

/-- C1 witness: the guard fires at a concrete pending state. -/
theorem submit_while_pending_is_noop_witness :
    pendingState.loading = true ∧
    (sendMessage envNoKey 3 4 pendingState).1 = pendingState ∧
    (sendMessage envNoKey 3 4 pendingState).2 = none :=
  ⟨rfl, (submit_while_pending_is_noop envNoKey 3 4 pendingState rfl).1,
    (submit_while_pending_is_noop envNoKey 3 4 pendingState rfl).2⟩

/-- C2: an accepted submission with the credential present issues a request
whose messages array has exactly history length + 2 entries: the fixed
system message first, then the history mapped to role/content pairs in
original order without truncation, then the new user entry. -/
theorem request_payload_shape (env : Env) (t1 t2 : Nat) (s : AppState)
    (hacc : (blankDraft s.input || s.loading) = false)
    (hkey : keyPresent env = true) :
    ∃ p : RequestPayload, (sendMessage env t1 t2 s).2 = some p ∧
      p.messages.length = s.messages.length + 2 ∧
      p.messages = { role := "system", content := systemPrompt } ::
        (s.messages.map toPayloadMessage ++
         [{ role := "user", content := s.input }]) := by
  refine ⟨buildPayload s.messages s.input, ?_, ?_, rfl⟩
  · rw [sendMessage_accepted env t1 t2 s hacc]
    simp [hkey]
  · simp [buildPayload]

/-- C2 witness: one prior greeting message yields a three-entry payload. -/
theorem request_payload_shape_witness :
    (blankDraft readyState.input || readyState.loading) = false ∧
    keyPresent envHttp500 = true ∧
    ∃ p : RequestPayload, (sendMessage envHttp500 5 6 readyState).2 = some p ∧
      p.messages.length = readyState.messages.length + 2 ∧
      p.messages = { role := "system", content := systemPrompt } ::
        (readyState.messages.map toPayloadMessage ++
         [{ role := "user", content := readyState.input }]) :=
  ⟨by decide, by decide,
    request_payload_shape envHttp500 5 6 readyState (by decide) (by decide)⟩

/-- C3 counterexample: a 2xx response whose first choice carries the empty
string as content does not receive the fallback text; the appended
assistant message is empty, because the nullish coalescing operator keeps
an empty string. -/
theorem empty_content_keeps_empty_string :
    (sendMessage envEmptyContent 1 2 readyState).1.messages.getLast? =
      some { role := Role.assistant, content := "", timestamp := 2 } ∧
    ("" : String) ≠ fallbackText := by
  exact ⟨by decide, by decide⟩

/-- C3 (amended): on a 2xx response carrying a choices array, the appended
assistant text is the extracted reply and the run stays on the success
branch; the fallback is substituted when the first choice, its message or
its content is absent, while a present empty-string content is used as-is
(no fallback). -/
theorem success_reply_extraction (env : Env) (t1 t2 : Nat) (s : AppState)
    (cs : List Choice)
    (hacc : (blankDraft s.input || s.loading) = false)
    (hkey : keyPresent env = true)
    (hresp : env.fetchResult = FetchOutcome.success { choices := some cs }) :
    (sendMessage env t1 t2 s).1.messages = s.messages ++
      [{ role := Role.user, content := s.input, timestamp := t1 },
       { role := Role.assistant, content := extractReply cs, timestamp := t2 }] ∧
    (cs = [] → extractReply cs = fallbackText) ∧
    (∀ c rest, cs = c :: rest → c.message = none →
      extractReply cs = fallbackText) ∧
    (∀ c rest m, cs = c :: rest → c.message = some m → m.content = none →
      extractReply cs = fallbackText) ∧
    (∀ c rest m str, cs = c :: rest → c.message = some m →
      m.content = some str → extractReply cs = str) := by
  refine ⟨?_, ?_, ?_, ?_, ?_⟩
  · rw [sendMessage_accepted env t1 t2 s hacc]
    simp [replyText, hkey, hresp]
  · intro h; rw [h]; rfl
  · intro c rest hc hmsg; rw [hc]; simp [extractReply, hmsg]
  · intro c rest m hc hmsg hcont; rw [hc]; simp [extractReply, hmsg, hcont]
  · intro c rest m str hc hmsg hcont; rw [hc]; simp [extractReply, hmsg, hcont]

/-- C3 witness: the empty-string content passes through unchanged. -/
theorem success_reply_extraction_witness :
    (blankDraft readyState.input || readyState.loading) = false ∧
    keyPresent envEmptyContent = true ∧
    extractReply [{ message := some { content := some "" } }] = "" :=
  ⟨by decide, by decide,
    (success_reply_extraction envEmptyContent 1 2 readyState
        [{ message := some { content := some "" } }]
        (by decide) (by decide) rfl).2.2.2.2 _ _ _ _ rfl rfl rfl⟩

/-- C4: every accepted submission ends with `loading` and `isTyping` false,
whatever the environment produced (reply, missing key, non-2xx status,
network error or malformed body): the finally block always runs. -/
theorem pending_cleared_after_resolve (env : Env) (t1 t2 : Nat) (s : AppState)
    (hacc : (blankDraft s.input || s.loading) = false) :
    (sendMessage env t1 t2 s).1.loading = false ∧
    (sendMessage env t1 t2 s).1.isTyping = false := by
  rw [sendMessage_accepted env t1 t2 s hacc]
  exact ⟨rfl, rfl⟩

/-- C4 witness: the flags clear even when the credential is missing. -/
theorem pending_cleared_after_resolve_witness :
    (blankDraft readyState.input || readyState.loading) = false ∧
    (sendMessage envNoKey 1 2 readyState).1.loading = false ∧
    (sendMessage envNoKey 1 2 readyState).1.isTyping = false :=
  ⟨by decide,
    (pending_cleared_after_resolve envNoKey 1 2 readyState (by decide)).1,
    (pending_cleared_after_resolve envNoKey 1 2 readyState (by decide)).2⟩

/-- C5: a blank draft (empty or whitespace-only after trimming) makes
`sendMessage` a complete no-op: history, flags and draft are unchanged and
no request is issued. -/
theorem blank_draft_is_noop (env : Env) (t1 t2 : Nat) (s : AppState)
    (h : blankDraft s.input = true) :
    sendMessage env t1 t2 s = (s, none) := by
  apply sendMessage_rejected
  rw [h]
  simp

/-- C5 witness: a three-space draft is rejected without any effect. -/
theorem blank_draft_is_noop_witness :
    blankDraft blankState.input = true ∧
    sendMessage envNoKey 1 2 blankState = (blankState, none) :=
  ⟨by decide, blank_draft_is_noop envNoKey 1 2 blankState (by decide)⟩

/-- C6: an accepted submission always appends exactly two messages, and on
every failure of the remote call (missing credential, network error or
non-2xx status) the second is the assistant apology text: failures never
escape the call, and every accepted submit leaves a visible transcript
entry on success and on failure alike. -/
theorem failure_appends_apology (env : Env) (t1 t2 : Nat) (s : AppState)
    (hacc : (blankDraft s.input || s.loading) = false) :
    (sendMessage env t1 t2 s).1.messages.length = s.messages.length + 2 ∧
    ((keyPresent env = false ∨ env.fetchResult = FetchOutcome.networkError ∨
        (∃ code, env.fetchResult = FetchOutcome.httpError code)) →
      (sendMessage env t1 t2 s).1.messages = s.messages ++
        [{ role := Role.user, content := s.input, timestamp := t1 },
         { role := Role.assistant, content := errorText, timestamp := t2 }]) := by
  rw [sendMessage_accepted env t1 t2 s hacc]
  refine ⟨by simp, ?_⟩
  rintro (hk | hf | ⟨code, hf⟩)
  · simp [replyText, hk]
  · simp [replyText, hf]
  · simp [replyText, hf]

/-- C6 witness: an HTTP 500 answer appends the user message and the apology
text. -/
theorem failure_appends_apology_witness :
    (blankDraft readyState.input || readyState.loading) = false ∧
    (sendMessage envHttp500 1 2 readyState).1.messages =
      readyState.messages ++
        [{ role := Role.user, content := readyState.input, timestamp := 1 },
         { role := Role.assistant, content := errorText, timestamp := 2 }] :=
  ⟨by decide, (failure_appends_apology envHttp500 1 2 readyState (by decide)).2
      (Or.inr (Or.inr ⟨500, rfl⟩))⟩

/-- C7: the transcript is append-only under every UI event (no entry is
mutated or removed), and every state reachable from the mounted state keeps
the synthesized greeting as its first message. -/
theorem transcript_append_only_greeting_first :
    (∀ s s', Step s s' → ∃ suffix, s'.messages = s.messages ++ suffix) ∧
    (∀ t0 s, Reachable t0 s → s.messages ≠ [] →
      ∃ rest, s.messages = greetingMessage t0 :: rest) :=
  ⟨step_appends, fun t0 s h _ => reachable_head t0 s h⟩

/-- C8 counterexample: with a request outstanding the textarea is disabled,
so a user edit leaves the draft unchanged instead of updating it. -/
theorem edit_while_pending_blocked :
    (userEdit "new draft" pendingState).input = "hello" ∧
    ("hello" : String) ≠ "new draft" := by
  exact ⟨rfl, by decide⟩

/-- C8 (amended): the onChange handler `setInput` updates the draft
unconditionally for every state and never touches transcript or flags, but
the textarea is rendered with `disabled={loading}`, so a user edit reaches
the handler only while no request is outstanding: while pending, a user
edit is a no-op and the user cannot in fact edit the draft. -/
theorem editDraft_unguarded_but_textarea_disabled :
    (∀ s t, (editDraft t s).input = t ∧ (editDraft t s).messages = s.messages ∧
      (editDraft t s).loading = s.loading) ∧
    (∀ s, textareaDisabled s = s.loading) ∧
    (∀ s t, s.loading = true → userEdit t s = s) ∧
    (∀ s t, s.loading = false → (userEdit t s).input = t) := by
  refine ⟨fun s t => ⟨rfl, rfl, rfl⟩, fun s => rfl, ?_, ?_⟩
  · intro s t h
    simp [userEdit, textareaDisabled, h]
  · intro s t h
    simp [userEdit, textareaDisabled, editDraft, h]

/-- C9: a 2xx body with no `choices` field takes the catch branch and
appends the error text, while an empty choices array or a missing message
or content field stays on the success path and yields the success-path
fallback; the two strings differ. -/
theorem missing_choices_takes_error_branch (env : Env) (t1 t2 : Nat)
    (s : AppState)
    (hacc : (blankDraft s.input || s.loading) = false)
    (hkey : keyPresent env = true) :
    (env.fetchResult = FetchOutcome.success { choices := none } →
      (sendMessage env t1 t2 s).1.messages = s.messages ++
        [{ role := Role.user, content := s.input, timestamp := t1 },
         { role := Role.assistant, content := errorText, timestamp := t2 }]) ∧
    extractReply [] = fallbackText ∧
    (∀ rest, extractReply ({ message := none } :: rest) = fallbackText) ∧
    (∀ rest, extractReply ({ message := some { content := none } } :: rest) =
      fallbackText) ∧
    errorText ≠ fallbackText := by
  refine ⟨?_, rfl, fun rest => rfl, fun rest => rfl, by decide⟩
  intro hresp
  rw [sendMessage_accepted env t1 t2 s hacc]
  simp [replyText, hkey, hresp]

/-- C9 witness: a body without choices yields the error text. -/
theorem missing_choices_takes_error_branch_witness :
    (blankDraft readyState.input || readyState.loading) = false ∧
    keyPresent envNoChoices = true ∧
    (sendMessage envNoChoices 1 2 readyState).1.messages =
      readyState.messages ++
        [{ role := Role.user, content := readyState.input, timestamp := 1 },
         { role := Role.assistant, content := errorText, timestamp := 2 }] :=
  ⟨by decide, by decide,
    (missing_choices_takes_error_branch envNoChoices 1 2 readyState
        (by decide) (by decide)).1 rfl⟩

/-- C10: an accepted submission stores the raw untrimmed draft as the user
message content and sends the same raw text as the final payload entry; the
draft is not whitespace-only, and in every reachable state user-authored
messages have content that is non-blank after trimming while possibly
carrying surrounding whitespace. -/
theorem raw_draft_stored_and_sent (env : Env) (t1 t2 : Nat) (s : AppState)
    (hacc : (blankDraft s.input || s.loading) = false) :
    blankDraft s.input = false ∧
    (∃ rest, (sendMessage env t1 t2 s).1.messages = s.messages ++
      { role := Role.user, content := s.input, timestamp := t1 } :: rest) ∧
    (∀ p, (sendMessage env t1 t2 s).2 = some p →
      p.messages.getLast? = some { role := "user", content := s.input }) ∧
    (∀ t0 u, Reachable t0 u → ∀ m ∈ u.messages, m.role = Role.user →
      blankDraft m.content = false) := by
  refine ⟨?_, ?_, ?_, reachable_user_nonblank⟩
  · cases hb : blankDraft s.input
    · rfl
    · rw [hb] at hacc; simp at hacc
  · rw [sendMessage_accepted env t1 t2 s hacc]
    exact ⟨_, rfl⟩
  · intro p hp
    rw [sendMessage_accepted env t1 t2 s hacc] at hp
    cases hk : keyPresent env with
    | false => rw [hk] at hp; simp at hp
    | true =>
      rw [hk] at hp
      simp at hp
      rw [← hp]
      show ({ role := "system", content := systemPrompt } ::
        (s.messages.map toPayloadMessage ++
         [{ role := "user", content := s.input }])).getLast? = _
      rw [← List.cons_append]
      exact List.getLast?_concat _

/-- C10 witness: a draft with surrounding whitespace is stored verbatim. -/
theorem raw_draft_stored_and_sent_witness :
    (blankDraft readyState.input || readyState.loading) = false ∧
    blankDraft readyState.input = false ∧
    (∃ rest, (sendMessage envHttp500 1 2 readyState).1.messages =
      readyState.messages ++
        { role := Role.user, content := readyState.input,
          timestamp := 1 } :: rest) :=
  ⟨by decide,
    (raw_draft_stored_and_sent envHttp500 1 2 readyState (by decide)).1,
    (raw_draft_stored_and_sent envHttp500 1 2 readyState (by decide)).2.1⟩

end SentientChat
